import Mathlib

/-!
Verification of the gwc-exporter extraction pipeline.

Shallow embedding of `src/gwc-exporter.go` (the GeoWebCache Prometheus
exporter).  Text is modelled as `List Char`; Go `float64` values are
modelled as exact rationals (`QV` below) — all claim-relevant values are
small decimal literals for which Go's binary floating point is exact; Go
`int64` is modelled as `ℤ` with the explicit range check that
`strconv.ParseInt` performs.  The Go regular expressions are embedded by
an executable backtracking matcher (`rxMatch`/`rxFind`) with
leftmost-first (Perl-style) semantics, which is the semantics Go's
`regexp.FindStringSubmatch` documents; each pattern literal from the
source is transcribed node by node.
-/

/-! ## Normalization (Collect, lines 177–179)

`html = strings.ReplaceAll(html, "&nbsp;", " ")` followed by
`regexp.MustCompile(`\s+`).ReplaceAllString(html, " ")`. -/

/-- RE2 `\s` character class: `[\t\n\f\r ]`. -/
def isWS (c : Char) : Bool :=
  c = ' ' || c = '\t' || c = '\n' || c = Char.ofNat 12 || c = Char.ofNat 13

/-- The characters of the entity `&nbsp;`. -/
def nbspL : List Char := ['&', 'n', 'b', 's', 'p', ';']

/-- `strings.ReplaceAll(html, "&nbsp;", " ")`: leftmost non-overlapping
replacement of every occurrence of `&nbsp;` by one space. -/
def replaceAllNbsp : List Char → List Char
  | '&' :: 'n' :: 'b' :: 's' :: 'p' :: ';' :: rest => ' ' :: replaceAllNbsp rest
  | c :: cs => c :: replaceAllNbsp cs
  | [] => []

/-- Worker for whitespace collapsing: `inWS` records whether the previous
input character was whitespace (in which case further whitespace is
dropped rather than emitted). -/
def collapseGo : Bool → List Char → List Char
  | _, [] => []
  | inWS, c :: cs =>
    if isWS c then
      if inWS then collapseGo true cs else ' ' :: collapseGo true cs
    else c :: collapseGo false cs

/-- `regexp.MustCompile(`\s+`).ReplaceAllString(html, " ")`: every maximal
run of whitespace becomes a single space. -/
def collapseWS (l : List Char) : List Char := collapseGo false l

/-- The whole normalization step of `Collect`. -/
def normalizeL (l : List Char) : List Char := collapseWS (replaceAllNbsp l)

example : normalizeL "a&nbsp;b   c".data = "a b c".data := by decide
example : normalizeL "".data = [] := by decide

/-! ## An executable regular-expression engine

Character classes and regular expressions sufficient for the patterns in
the source, with a backtracking matcher in continuation-passing style.
`rxFind` reproduces Go's `FindStringSubmatch` semantics on these
patterns: the match starts as early as possible in the input, and among
matches at that position the one a backtracking (Perl-style) search
finds first is chosen; alternation prefers the left branch; `*`/`+` are
greedy.  None of the starred subexpressions in the source patterns is
nullable, so the progress guard in the `star` case never cuts a
Go-reachable branch. -/

/-- Character classes appearing in the source patterns. -/
inductive CCls where
  | single : Char → CCls
  | range : Char → Char → CCls
  | union : CCls → CCls → CCls
  | compl : CCls → CCls

/-- Membership test of a character class. -/
def CCls.test : CCls → Char → Bool
  | .single a, c => c = a
  | .range lo hi, c => lo ≤ c && c ≤ hi
  | .union a b, c => a.test c || b.test c
  | .compl a, c => !a.test c

/-- Regular expressions: empty word, one class, concatenation,
alternation, greedy Kleene star, numbered capture group. -/
inductive Rx where
  | eps : Rx
  | cls : CCls → Rx
  | cat : Rx → Rx → Rx
  | alt : Rx → Rx → Rx
  | star : Rx → Rx
  | group : Nat → Rx → Rx

/-- Number of nodes of a regular expression (used to budget matcher fuel). -/
def rxSize : Rx → Nat
  | .eps => 1
  | .cls _ => 1
  | .cat a b => rxSize a + rxSize b + 1
  | .alt a b => rxSize a + rxSize b + 1
  | .star a => rxSize a + 1
  | .group _ a => rxSize a + 1

/-- Capture environment: group index paired with the captured characters. -/
abbrev Caps := List (Nat × List Char)

/-- Backtracking matcher.  `rxMatch f r s caps k` tries to match a prefix
of `s` against `r`, extending `caps` with completed groups, and hands the
remaining input to the continuation `k`; `none` from `k` backtracks into
the next alternative.  Greedy star tries another iteration before
exiting; a star iteration must consume input. -/
def rxMatch : Nat → Rx → List Char → Caps → (List Char → Caps → Option Caps) → Option Caps
  | 0, _, _, _, _ => none
  | _ + 1, .eps, s, caps, k => k s caps
  | _ + 1, .cls c, s, caps, k =>
    match s with
    | [] => none
    | ch :: rest => if c.test ch then k rest caps else none
  | f + 1, .cat a b, s, caps, k =>
    rxMatch f a s caps (fun s' caps' => rxMatch f b s' caps' k)
  | f + 1, .alt a b, s, caps, k =>
    match rxMatch f a s caps k with
    | some r => some r
    | none => rxMatch f b s caps k
  | f + 1, .star a, s, caps, k =>
    match rxMatch f a s caps
        (fun s' caps' =>
          if s'.length < s.length then rxMatch f (.star a) s' caps' k else none) with
    | some r => some r
    | none => k s caps
  | f + 1, .group n a, s, caps, k =>
    rxMatch f a s caps
      (fun s' caps' => k s' ((n, s.take (s.length - s'.length)) :: caps'))

/-- Fuel that is sufficient for `rxMatch` on input `s`: the nesting depth
of matcher calls is bounded by the pattern size times the number of
consumed characters. -/
def rxFuel (r : Rx) (s : List Char) : Nat := (rxSize r + 4) * (s.length + 4)

/-- `FindStringSubmatch`: try a match at each start position, leftmost
first; `none` means the Go call returned no match. -/
def rxFind (r : Rx) : List Char → Option Caps
  | [] =>
    (match rxMatch (rxFuel r []) r [] [] (fun _ caps => some caps) with
     | some caps => some caps
     | none => none)
  | c :: rest =>
    match rxMatch (rxFuel r (c :: rest)) r (c :: rest) [] (fun _ caps => some caps) with
    | some caps => some caps
    | none => rxFind r rest

/-- Look up capture group `n` (Go's `m[n]`). -/
def capGet (caps : Caps) (n : Nat) : Option (List Char) :=
  match caps with
  | [] => none
  | (i, g) :: rest => if i = n then some g else capGet rest n

/-! Pattern-building helpers, so each Go pattern can be transcribed
piecewise. -/

/-- Literal string pattern. -/
def rlit (s : String) : Rx :=
  s.data.foldr (fun c acc => Rx.cat (Rx.cls (CCls.single c)) acc) Rx.eps

/-- Concatenation of a list of patterns. -/
def rcat (l : List Rx) : Rx := l.foldr Rx.cat Rx.eps

/-- Greedy `?`. -/
def ropt (r : Rx) : Rx := Rx.alt r Rx.eps

/-- Greedy `+`. -/
def rplus (r : Rx) : Rx := Rx.cat r (Rx.star r)

/-- `\s` as a class. -/
def clsWS : CCls :=
  CCls.union (CCls.single ' ')
    (CCls.union (CCls.single '\t')
      (CCls.union (CCls.single '\n')
        (CCls.union (CCls.single (Char.ofNat 12)) (CCls.single (Char.ofNat 13)))))

/-- `\s*`. -/
def rws : Rx := Rx.star (Rx.cls clsWS)

/-- `[0-9]`. -/
def clsDigit : CCls := CCls.range '0' '9'

/-- `[0-9,]`. -/
def clsDigitComma : CCls := CCls.union clsDigit (CCls.single ',')

/-- `[0-9.]`. -/
def clsDigitDot : CCls := CCls.union clsDigit (CCls.single '.')

/-- `[A-Za-z]`. -/
def clsAlpha : CCls := CCls.union (CCls.range 'A' 'Z') (CCls.range 'a' 'z')

/-- `[^c]`. -/
def clsNot (c : Char) : CCls := CCls.compl (CCls.single c)

/-- `.` (RE2 without the `s` flag: any character but newline). -/
def clsDot : CCls := CCls.compl (CCls.single '\n')

/-- `[0-9,]+`. -/
def rnum : Rx := rplus (Rx.cls clsDigitComma)

/-- `[0-9.]+`. -/
def rfloatTok : Rx := rplus (Rx.cls clsDigitDot)

/-- `<td[^>]*>`. -/
def rtdOpen : Rx := rcat [rlit "<td", Rx.star (Rx.cls (clsNot '>')), rlit ">"]

/-- `\s*</th>\s*<td[^>]*>\s*` — the glue between a `<th>` label and its
value cell, shared by most scalar patterns. -/
def rthTd : Rx := rcat [rws, rlit "</th>", rws, rtdOpen, rws]

example : rxFind (rcat [rlit "ab", rws, Rx.group 1 rnum]) "xx ab 1,2 y".data
    = some [(1, "1,2".data)] := by decide
example : rxFind (rlit "zz") "xx ab".data = none := by decide

/-! ## Exact rationals with kernel-computable arithmetic

Go `float64` values are modelled as exact rationals.  Mathlib's `ℚ`
normalizes through `Nat.gcd`, which is defined by well-founded recursion
and does not reduce inside the kernel, so concrete evaluation
(`decide`/`rfl`) would get stuck; `QV` is the same mathematical object
with a structural, fuel-based Euclid so that every operation
kernel-evaluates.  All values reaching these operations in the claims
are small decimal literals on which binary floating point is exact, so
the exact-rational model agrees with Go's `float64` there. -/

/-- Euclid's algorithm with explicit fuel (the fuel is always ample:
each step strictly decreases the second argument). -/
def gcdFuel : Nat → Nat → Nat → Nat
  | 0, a, _ => a
  | _ + 1, a, 0 => a
  | f + 1, a, b + 1 => gcdFuel f (b + 1) (a % (b + 1))

/-- A rational number as numerator and (positive, on every path that
constructs one) denominator. -/
structure QV where
  num : ℤ
  den : ℕ
deriving DecidableEq, Repr

/-- Canonical form: divide out the greatest common divisor. -/
def qcanon (n : ℤ) (d : ℕ) : QV :=
  if d = 0 then ⟨0, 1⟩
  else
    let g := gcdFuel (n.natAbs + d + 2) n.natAbs d
    ⟨n.sign * (n.natAbs / g : ℕ), d / g⟩

/-- Embed an integer. -/
def QV.ofInt (n : ℤ) : QV := ⟨n, 1⟩

/-- Multiply by an integer. -/
def QV.mulInt (a : QV) (n : ℤ) : QV := qcanon (a.num * n) a.den

/-- `0 ≤ a` (denominators are positive on every constructing path). -/
def QV.nonneg (a : QV) : Bool := 0 ≤ a.num

/-- Go `int64(f)`: truncation toward zero. -/
def QV.trunc (a : QV) : ℤ := a.num.sign * (a.num.natAbs / a.den : ℕ)

/-! ## Numeric conversions (`toInt`, `toFloat`) -/

/-- Value of a digit string. -/
def digitsVal (l : List Char) : Nat :=
  l.foldl (fun a c => a * 10 + (c.toNat - 48)) 0

/-- `strconv.ParseInt(s, 10, 64)`: optional sign, non-empty digit string,
64-bit signed range check; `none` is Go's error return. -/
def goParseInt64 (l : List Char) : Option ℤ :=
  let p : ℤ × List Char :=
    match l with
    | '-' :: r => (-1, r)
    | '+' :: r => (1, r)
    | r => (1, r)
  if p.2.isEmpty || !p.2.all Char.isDigit then none
  else
    let v : ℤ := p.1 * digitsVal p.2
    if v < -(2 ^ 63) || 2 ^ 63 - 1 < v then none else some v

/-- `toInt` from the source: strip commas, parse, `-1` on any error. -/
def toInt (s : List Char) : ℤ :=
  match goParseInt64 (s.filter (fun c => c ≠ ',')) with
  | some v => v
  | none => -1

/-- Decimal syntax accepted by `strconv.ParseFloat` restricted to the
character sets the source's capture groups can produce (`[0-9.]`, plus a
sign for faithfulness): optional sign, digits with at most one dot, at
least one digit overall. -/
def parseDecQ (l : List Char) : Option QV :=
  let p : ℤ × List Char :=
    match l with
    | '-' :: r => (-1, r)
    | '+' :: r => (1, r)
    | r => (1, r)
  let ip := p.2.takeWhile (fun c => c ≠ '.')
  let rest := p.2.dropWhile (fun c => c ≠ '.')
  match rest with
  | [] =>
    if ip.isEmpty || !ip.all Char.isDigit then none
    else some (QV.ofInt (p.1 * digitsVal ip))
  | _ :: fp =>
    if fp.contains '.' then none
    else if (ip.isEmpty && fp.isEmpty) || !ip.all Char.isDigit || !fp.all Char.isDigit then
      none
    else
      some (qcanon (p.1 * (digitsVal ip * 10 ^ fp.length + digitsVal fp)) (10 ^ fp.length))

/-- `toFloat` from the source: strip commas, parse, `-1` on any error. -/
def toFloat (s : List Char) : QV :=
  match parseDecQ (s.filter (fun c => c ≠ ',')) with
  | some v => v
  | none => QV.ofInt (-1)

example : toInt "12,345".data = 12345 := by decide
example : toFloat "1.5".data = ⟨3, 2⟩ := by decide
example : toFloat "1.2.3".data = QV.ofInt (-1) := by decide

/-! ## Generic first-match helpers (`parseFirstNumber` etc.) -/

/-- `parseFirstNumber`: find the pattern, convert capture 1 with `toInt`;
`-1` when the pattern does not match. -/
def parseFirstNumber (pat : Rx) (html : List Char) : ℤ :=
  match rxFind pat html with
  | none => -1
  | some caps =>
    match capGet caps 1 with
    | none => -1
    | some g => toInt g

/-- `parseFirstFloat`: as above with `toFloat`. -/
def parseFirstFloat (pat : Rx) (html : List Char) : QV :=
  match rxFind pat html with
  | none => QV.ofInt (-1)
  | some caps =>
    match capGet caps 1 with
    | none => QV.ofInt (-1)
    | some g => toFloat g

/-- `strings.TrimSpace` (on text already normalized the relevant
whitespace is plain spaces). -/
def trimL (l : List Char) : List Char :=
  ((l.dropWhile isWS).reverse.dropWhile isWS).reverse

/-- `parseFirstString`: trimmed capture 1, `""` when unmatched. -/
def parseFirstString (pat : Rx) (html : List Char) : List Char :=
  match rxFind pat html with
  | none => []
  | some caps =>
    match capGet caps 1 with
    | none => []
    | some g => trimL g

/-! ## RFC 1123 timestamps (`time.Parse(time.RFC1123, ...)` → `Unix()`)

Go's layout is `Mon, 02 Jan 2006 15:04:05 MST`; parsing demands a valid
short weekday name, exactly two day digits, a valid short month name,
four year digits, in-range clock fields and an in-range day of month;
the weekday is not checked for consistency with the date.  `GMT` yields
offset zero.  `Unix()` is days-from-civil arithmetic. -/

/-- Go's `shortDayNames`. -/
def shortDayNames : List (List Char) :=
  ["Sun".data, "Mon".data, "Tue".data, "Wed".data, "Thu".data, "Fri".data, "Sat".data]

/-- Short month name to month number. -/
def monthNum (m : List Char) : Option Nat :=
  if m = "Jan".data then some 1 else if m = "Feb".data then some 2
  else if m = "Mar".data then some 3 else if m = "Apr".data then some 4
  else if m = "May".data then some 5 else if m = "Jun".data then some 6
  else if m = "Jul".data then some 7 else if m = "Aug".data then some 8
  else if m = "Sep".data then some 9 else if m = "Oct".data then some 10
  else if m = "Nov".data then some 11 else if m = "Dec".data then some 12
  else none

/-- Gregorian leap year. -/
def isLeapYear (y : ℤ) : Bool := (y % 4 = 0 && y % 100 ≠ 0) || y % 400 = 0

/-- Length of a month. -/
def daysInMonth (y : ℤ) (m : Nat) : Nat :=
  if m = 2 then (if isLeapYear y then 29 else 28)
  else if m = 4 || m = 6 || m = 9 || m = 11 then 30
  else 31

/-- Days from 1970-01-01 to `y-m-d` (civil-days algorithm). -/
def daysFromCivil (y : ℤ) (m d : Nat) : ℤ :=
  let yy : ℤ := if m ≤ 2 then y - 1 else y
  let era : ℤ := Int.fdiv yy 400
  let yoe : Nat := (yy - era * 400).toNat
  let mp : Nat := if 2 < m then m - 3 else m + 9
  let doy : Nat := (153 * mp + 2) / 5 + d - 1
  let doe : Nat := yoe * 365 + yoe / 4 - yoe / 100 + doy
  era * 146097 + (doe : ℤ) - 719468

/-- `time.Parse(time.RFC1123, s).Unix()` on the strings the source's
timestamp-shaped captures can produce; `none` is Go's parse error. -/
def goParseRFC1123 : List Char → Option ℤ
  | w1 :: w2 :: w3 :: ',' :: ' ' :: d1 :: d2 :: ' ' :: m1 :: m2 :: m3 :: ' ' ::
      y1 :: y2 :: y3 :: y4 :: ' ' :: h1 :: h2 :: ':' :: n1 :: n2 :: ':' ::
      s1 :: s2 :: ' ' :: 'G' :: 'M' :: 'T' :: [] =>
    if !shortDayNames.contains [w1, w2, w3] then none
    else if !([d1, d2, y1, y2, y3, y4, h1, h2, n1, n2, s1, s2].all Char.isDigit) then none
    else
      match monthNum [m1, m2, m3] with
      | none => none
      | some mo =>
        let y : ℤ := (digitsVal [y1, y2, y3, y4] : ℤ)
        let d := digitsVal [d1, d2]
        let hh := digitsVal [h1, h2]
        let mm := digitsVal [n1, n2]
        let ss := digitsVal [s1, s2]
        if d < 1 || daysInMonth y mo < d || 23 < hh || 59 < mm || 59 < ss then none
        else some (daysFromCivil y mo d * 86400 + (hh * 3600 + mm * 60 + ss : Nat))
  | _ => none

example : goParseRFC1123 "Thu, 01 Jan 1970 00:00:00 GMT".data = some 0 := by decide
example : goParseRFC1123 "Tue, 10 Oct 2023 12:34:56 GMT".data = some 1696941296 := by
  decide

/-! ## Field-specific parsers -/

/-- `Welcome to GeoWebCache version ([^,]+), build ([^<]+)`. -/
def versionBuildRx : Rx :=
  rcat [rlit "Welcome to GeoWebCache version ",
    Rx.group 1 (rplus (Rx.cls (clsNot ','))),
    rlit ", build ",
    Rx.group 2 (rplus (Rx.cls (clsNot '<')))]

/-- `parseVersionBuild`: the trimmed pair, `("", "")` on no match. -/
def parseVersionBuild (html : List Char) : List Char × List Char :=
  match rxFind versionBuildRx html with
  | none => ([], [])
  | some caps =>
    match capGet caps 1, capGet caps 2 with
    | some g1, some g2 => (trimL g1, trimL g2)
    | _, _ => ([], [])

/-- The timestamp shape
`[A-Za-z]{3}, [0-9]{1,2} [A-Za-z]{3} [0-9]{4} [0-9]{2}:[0-9]{2}:[0-9]{2} GMT`. -/
def rxTimestamp : Rx :=
  rcat [Rx.cls clsAlpha, Rx.cls clsAlpha, Rx.cls clsAlpha, rlit ", ",
    Rx.cls clsDigit, ropt (Rx.cls clsDigit), rlit " ",
    Rx.cls clsAlpha, Rx.cls clsAlpha, Rx.cls clsAlpha, rlit " ",
    Rx.cls clsDigit, Rx.cls clsDigit, Rx.cls clsDigit, Rx.cls clsDigit, rlit " ",
    Rx.cls clsDigit, Rx.cls clsDigit, rlit ":",
    Rx.cls clsDigit, Rx.cls clsDigit, rlit ":",
    Rx.cls clsDigit, Rx.cls clsDigit, rlit " GMT"]

/-- Tight layout: `Started:\s*</th>\s*<td[^>]*>\s*(timestamp)`. -/
def startedTightRx : Rx := rcat [rlit "Started:", rthTd, Rx.group 1 rxTimestamp]

/-- Loose layout: `Started:\s*(timestamp)`. -/
def startedLooseRx : Rx := rcat [rlit "Started:", rws, Rx.group 1 rxTimestamp]

/-- The loose fallback half of `parseStartedUnix`. -/
def parseStartedLoose (html : List Char) : ℤ :=
  match rxFind startedLooseRx html with
  | none => 0
  | some caps =>
    match capGet caps 1 with
    | none => 0
    | some g =>
      match goParseRFC1123 g with
      | some t => t
      | none => 0

/-- `parseStartedUnix`: try the table-cell layout first, then the plain
layout; `0` when neither matches and parses. -/
def parseStartedUnix (html : List Char) : ℤ :=
  match rxFind startedTightRx html with
  | none => parseStartedLoose html
  | some caps =>
    match capGet caps 1 with
    | none => parseStartedLoose html
    | some g =>
      match goParseRFC1123 g with
      | some t => t
      | none => parseStartedLoose html

/-- `parseRFC1123InParens`: capture 1 of the given pattern, trimmed and
parsed as RFC 1123; `0` on any failure. -/
def parseRFC1123InParens (pat : Rx) (html : List Char) : ℤ :=
  match rxFind pat html with
  | none => 0
  | some caps =>
    match capGet caps 1 with
    | none => 0
    | some g =>
      match goParseRFC1123 (trimL g) with
      | some t => t
      | none => 0

/-- `(seconds|second|minutes|minute|hours|hour|days|day)`. -/
def unitAltRx : Rx :=
  Rx.alt (rlit "seconds") (Rx.alt (rlit "second")
    (Rx.alt (rlit "minutes") (Rx.alt (rlit "minute")
      (Rx.alt (rlit "hours") (Rx.alt (rlit "hour")
        (Rx.alt (rlit "days") (rlit "day")))))))

/-- `Started:.*\(([0-9.]+)\s*(seconds|…|day)\)`. -/
def uptimeRx : Rx :=
  rcat [rlit "Started:", Rx.star (Rx.cls clsDot), rlit "(",
    Rx.group 1 rfloatTok, rws, Rx.group 2 unitAltRx, rlit ")"]

/-- `parseUptimeSeconds`: magnitude times the unit's multiplier,
truncated to `int64`; `0` when the pattern does not match.  The unit
capture is matched against the lowercase prefixes `second`, `minute`,
`hour`, `day` in the source's order (the capture is already lowercase,
so Go's `ToLower` is the identity on it). -/
def parseUptimeSeconds (html : List Char) : ℤ :=
  match rxFind uptimeRx html with
  | none => 0
  | some caps =>
    match capGet caps 1, capGet caps 2 with
    | some g1, some g2 =>
      let val := toFloat g1
      if "second".data.isPrefixOf g2 then val.trunc
      else if "minute".data.isPrefixOf g2 then (val.mulInt 60).trunc
      else if "hour".data.isPrefixOf g2 then (val.mulInt 3600).trunc
      else if "day".data.isPrefixOf g2 then (val.mulInt 86400).trunc
      else 0
    | _, _ => 0

/-- `Cache Actual Size/ Total Size :\s*([0-9.]+)\s*/\s*([0-9.]+)\s* Mb`
(same-cell variant; note the literal space before `Mb`). -/
def sizesSameCellRx : Rx :=
  rcat [rlit "Cache Actual Size/ Total Size :", rws, Rx.group 1 rfloatTok,
    rws, rlit "/", rws, Rx.group 2 rfloatTok, rws, rlit " Mb"]

/-- `Cache Actual Size/ Total Size :\s*</td>\s*<td[^>]*>\s*([0-9.]+)\s*/\s*([0-9.]+)\s*Mb`
(next-cell variant). -/
def sizesNextCellRx : Rx :=
  rcat [rlit "Cache Actual Size/ Total Size :", rws, rlit "</td>", rws, rtdOpen,
    rws, Rx.group 1 rfloatTok, rws, rlit "/", rws, Rx.group 2 rfloatTok,
    rws, rlit "Mb"]

/-- `parseSizesMB`: actual/total megabytes, tried against the two layout
variants; `(-1, -1)` when neither matches. -/
def parseSizesMB (html : List Char) : QV × QV :=
  match rxFind sizesSameCellRx html with
  | some caps =>
    (match capGet caps 1, capGet caps 2 with
     | some g1, some g2 => (toFloat g1, toFloat g2)
     | _, _ => (QV.ofInt (-1), QV.ofInt (-1)))
  | none =>
    match rxFind sizesNextCellRx html with
    | some caps =>
      (match capGet caps 1, capGet caps 2 with
       | some g1, some g2 => (toFloat g1, toFloat g2)
       | _, _ => (QV.ofInt (-1), QV.ofInt (-1)))
    | none => (QV.ofInt (-1), QV.ofInt (-1))

/-! ## The scalar patterns of `Collect` -/

/-- `Total number of requests:\s*</th>\s*<td[^>]*>\s*([0-9,]+)`. -/
def requestsTotalRx : Rx :=
  rcat [rlit "Total number of requests:", rthTd, Rx.group 1 rnum]

/-- `Total number of requests:\s*</th>\s*<td[^>]*>\s*[0-9,]+\s*\(\s*([0-9.]+)\s*/s\s*\)\s*</td>`. -/
def requestsRateRx : Rx :=
  rcat [rlit "Total number of requests:", rthTd, rnum, rws, rlit "(", rws,
    Rx.group 1 rfloatTok, rws, rlit "/s", rws, rlit ")", rws, rlit "</td>"]

/-- `Total number of untiled WMS requests:\s*</th>\s*<td[^>]*>\s*([0-9,]+)`. -/
def untiledTotalRx : Rx :=
  rcat [rlit "Total number of untiled WMS requests:", rthTd, Rx.group 1 rnum]

/-- `Total number of untiled WMS requests:\s*</th>\s*<td[^>]*>\s*[0-9,]+\s*\(\s*([0-9.]+)\s*/s\s*\)\s*</td>`. -/
def untiledRateRx : Rx :=
  rcat [rlit "Total number of untiled WMS requests:", rthTd, rnum, rws, rlit "(", rws,
    Rx.group 1 rfloatTok, rws, rlit "/s", rws, rlit ")", rws, rlit "</td>"]

/-- `Total number of bytes:\s*</th>\s*<td[^>]*>\s*([0-9,]+)`. -/
def bytesTotalRx : Rx :=
  rcat [rlit "Total number of bytes:", rthTd, Rx.group 1 rnum]

/-- `Total number of bytes:\s*</th>\s*<td[^>]*>\s*[0-9,]+\s*\(\s*([0-9.]+)\s*mbps`. -/
def bandwidthRx : Rx :=
  rcat [rlit "Total number of bytes:", rthTd, rnum, rws, rlit "(", rws,
    Rx.group 1 rfloatTok, rws, rlit "mbps"]

/-- `Cache hit ratio:\s*</th>\s*<td[^>]*>\s*([0-9.]+)% of requests`. -/
def hitRatioRx : Rx :=
  rcat [rlit "Cache hit ratio:", rthTd, Rx.group 1 rfloatTok, rlit "% of requests"]

/-- `Blank/KML/HTML:\s*</th>\s*<td[^>]*>\s*([0-9.]+)% of requests`. -/
def blankRatioRx : Rx :=
  rcat [rlit "Blank/KML/HTML:", rthTd, Rx.group 1 rfloatTok, rlit "% of requests"]

/-- `Peak request rate:\s*</th>\s*<td[^>]*>\s*([0-9.]+)\s*/s`. -/
def peakRateRx : Rx :=
  rcat [rlit "Peak request rate:", rthTd, Rx.group 1 rfloatTok, rws, rlit "/s"]

/-- `Peak request rate:\s*</th>\s*<td[^>]*>\s*[0-9.]+\s*/s\s*\(([^)]+)\)`. -/
def peakRateTsRx : Rx :=
  rcat [rlit "Peak request rate:", rthTd, rfloatTok, rws, rlit "/s", rws, rlit "(",
    Rx.group 1 (rplus (Rx.cls (clsNot ')'))), rlit ")"]

/-- `Peak bandwidth:\s*</th>\s*<td[^>]*>\s*([0-9.]+)\s*mbps`. -/
def peakBwRx : Rx :=
  rcat [rlit "Peak bandwidth:", rthTd, Rx.group 1 rfloatTok, rws, rlit "mbps"]

/-- `Peak bandwidth:\s*</th>\s*<td[^>]*>\s*[0-9.]+\s*mbps\s*\(([^)]+)\)`. -/
def peakBwTsRx : Rx :=
  rcat [rlit "Peak bandwidth:", rthTd, rfloatTok, rws, rlit "mbps", rws, rlit "(",
    Rx.group 1 (rplus (Rx.cls (clsNot ')'))), rlit ")"]

/-- `All figures are ([0-9.]+)\s*second\(s\) delayed`. -/
def statsDelayRx : Rx :=
  rcat [rlit "All figures are ", Rx.group 1 rfloatTok, rws, rlit "second(s) delayed"]

/-- The per-window row pattern
`<tr>\s*<td>\s*WIN\s*</td>\s*<td[^>]*>\s*([0-9,]+)\s*</td>\s*<td[^>]*>\s*([0-9.]+)\s*/s\s*</td>\s*<td[^>]*>\s*([0-9,]+)\s*</td>\s*<td[^>]*>\s*([0-9.]+)\s*mbps`
(the window label contains no metacharacters, so `QuoteMeta` is the
identity on it). -/
def intervalRowRx (win : String) : Rx :=
  rcat [rlit "<tr>", rws, rlit "<td>", rws, rlit win, rws, rlit "</td>", rws,
    rtdOpen, rws, Rx.group 1 rnum, rws, rlit "</td>", rws,
    rtdOpen, rws, Rx.group 2 rfloatTok, rws, rlit "/s", rws, rlit "</td>", rws,
    rtdOpen, rws, Rx.group 3 rnum, rws, rlit "</td>", rws,
    rtdOpen, rws, Rx.group 4 rfloatTok, rws, rlit "mbps"]

/-- `Config file:\s*</th>\s*<td[^>]*>\s*<tt>([^<]+)`. -/
def configFileRx : Rx :=
  rcat [rlit "Config file:", rthTd, rlit "<tt>", Rx.group 1 (rplus (Rx.cls (clsNot '<')))]

/-- `Local Storage:\s*</th>\s*<td[^>]*>\s*<tt>([^<]+)`. -/
def localStorageRx : Rx :=
  rcat [rlit "Local Storage:", rthTd, rlit "<tt>", Rx.group 1 (rplus (Rx.cls (clsNot '<')))]

/-- `\s*</td>\s*<td[^>]*>\s*`-style glue of the memcache block:
`:</td><td[^>]*>\s*` (no whitespace allowed between the two tags). -/
def rtdTd : Rx := rcat [rlit "</td>", rtdOpen, rws]

/-- `Total number of requests:</td><td[^>]*>\s*([0-9,]+)` (memcache). -/
def mcRequestsRx : Rx :=
  rcat [rlit "Total number of requests:", rtdTd, Rx.group 1 rnum]

/-- `Internal Cache hit count:</td><td[^>]*>\s*([0-9,]+)`. -/
def mcHitCountRx : Rx :=
  rcat [rlit "Internal Cache hit count:", rtdTd, Rx.group 1 rnum]

/-- `Internal Cache miss count:</td><td[^>]*>\s*([0-9,]+)`. -/
def mcMissCountRx : Rx :=
  rcat [rlit "Internal Cache miss count:", rtdTd, Rx.group 1 rnum]

/-- `Internal Cache hit ratio:</td><td[^>]*>\s*([0-9.]+)\s*%`. -/
def mcHitRatioRx : Rx :=
  rcat [rlit "Internal Cache hit ratio:", rtdTd, Rx.group 1 rfloatTok, rws, rlit "%"]

/-- `Internal Cache miss ratio:</td><td[^>]*>\s*([0-9.]+)\s*%`. -/
def mcMissRatioRx : Rx :=
  rcat [rlit "Internal Cache miss ratio:", rtdTd, Rx.group 1 rfloatTok, rws, rlit "%"]

/-- `Total number of evicted tiles:</td><td[^>]*>\s*([0-9,]+)`. -/
def mcEvictedRx : Rx :=
  rcat [rlit "Total number of evicted tiles:", rtdTd, Rx.group 1 rnum]

/-- `Cache Memory occupation:</td><td[^>]*>\s*([0-9.]+)\s*%`. -/
def mcOccupationRx : Rx :=
  rcat [rlit "Cache Memory occupation:", rtdTd, Rx.group 1 rfloatTok, rws, rlit "%"]

/-! ## Snapshot assembly (`Collect`) -/

/-- One emitted metric sample: descriptor name, label values, value. -/
structure Metric where
  name : String
  labels : List String
  value : QV
deriving DecidableEq, Repr

/-- Emit a metric under a guard (the `if v >= 0 { ch <- ... }` shape). -/
def emitIf (b : Bool) (m : Metric) : List Metric :=
  if b then [m] else []

/-- `strings.Contains`. -/
def containsL (pat : List Char) : List Char → Bool
  | [] => pat.isEmpty
  | c :: rest => pat.isPrefixOf (c :: rest) || containsL pat rest

/-- The marker substring of the in-memory-cache block. -/
def mcMarker : List Char := "In Memory Cache Statistics".data

/-- Version/build pair: emitted when at least one component is non-empty. -/
def versionPart (html : List Char) : List Metric :=
  let p := parseVersionBuild html
  emitIf (!(p.1.isEmpty && p.2.isEmpty))
    ⟨"gwc_build_info", [String.mk p.1, String.mk p.2], QV.ofInt 1⟩

/-- `started_seconds`: emitted only when the parsed timestamp is `> 0`. -/
def startedPart (html : List Char) : List Metric :=
  emitIf (0 < parseStartedUnix html)
    ⟨"gwc_started_seconds", [], QV.ofInt (parseStartedUnix html)⟩

/-- `uptime_seconds`: emitted only when the parsed uptime is `> 0`. -/
def uptimePart (html : List Char) : List Metric :=
  emitIf (0 < parseUptimeSeconds html)
    ⟨"gwc_uptime_seconds", [], QV.ofInt (parseUptimeSeconds html)⟩

/-- A scalar integer field: emitted when the parse result is `>= 0`. -/
def intFieldPart (nm : String) (pat : Rx) (html : List Char) : List Metric :=
  emitIf (0 ≤ parseFirstNumber pat html)
    ⟨nm, [], QV.ofInt (parseFirstNumber pat html)⟩

/-- A scalar float field: emitted when the parse result is `>= 0`. -/
def floatFieldPart (nm : String) (pat : Rx) (html : List Char) : List Metric :=
  emitIf (parseFirstFloat pat html).nonneg ⟨nm, [], parseFirstFloat pat html⟩

/-- A parenthesized-timestamp field: emitted when the parsed time is `> 0`. -/
def tsFieldPart (nm : String) (pat : Rx) (html : List Char) : List Metric :=
  emitIf (0 < parseRFC1123InParens pat html)
    ⟨nm, [], QV.ofInt (parseRFC1123InParens pat html)⟩

/-- One window's row: a single combined match yields the four sub-values,
each emitted under its own `>= 0` guard; no match yields nothing. -/
def intervalRow (win : String) (html : List Char) : List Metric :=
  match rxFind (intervalRowRx win) html with
  | none => []
  | some caps =>
    match capGet caps 1, capGet caps 2, capGet caps 3, capGet caps 4 with
    | some g1, some g2, some g3, some g4 =>
      let reqs := toInt g1
      let rate := toFloat g2
      let bytes := toInt g3
      let mbps := toFloat g4
      emitIf (0 ≤ reqs) ⟨"gwc_interval_requests", [win], QV.ofInt reqs⟩ ++
      emitIf rate.nonneg ⟨"gwc_interval_rate_per_second", [win], rate⟩ ++
      emitIf (0 ≤ bytes) ⟨"gwc_interval_bytes", [win], QV.ofInt bytes⟩ ++
      emitIf mbps.nonneg ⟨"gwc_interval_bandwidth_mbps", [win], mbps⟩
    | _, _, _, _ => []

/-- The three fixed windows in the source's order. -/
def intervalsPart (html : List Char) : List Metric :=
  intervalRow "3 seconds" html ++ intervalRow "15 seconds" html ++
    intervalRow "60 seconds" html

/-- Storage paths: emitted when at least one is non-empty. -/
def storagePart (html : List Char) : List Metric :=
  let cf := parseFirstString configFileRx html
  let ls := parseFirstString localStorageRx html
  emitIf (!(cf.isEmpty && ls.isEmpty))
    ⟨"gwc_storage_info", [String.mk cf, String.mk ls], QV.ofInt 1⟩

/-- The nine memcache sub-fields of the marker-present branch, each
emitted independently under its own guard (the two sizes jointly). -/
def memcacheFields (html : List Char) : List Metric :=
  intFieldPart "gwc_memcache_requests_total" mcRequestsRx html ++
  intFieldPart "gwc_memcache_hit_count_total" mcHitCountRx html ++
  intFieldPart "gwc_memcache_miss_count_total" mcMissCountRx html ++
  floatFieldPart "gwc_memcache_hit_ratio_percent" mcHitRatioRx html ++
  floatFieldPart "gwc_memcache_miss_ratio_percent" mcMissRatioRx html ++
  intFieldPart "gwc_memcache_evicted_tiles_total" mcEvictedRx html ++
  floatFieldPart "gwc_memcache_occupation_percent" mcOccupationRx html ++
  emitIf ((parseSizesMB html).1.nonneg && (parseSizesMB html).2.nonneg)
    ⟨"gwc_memcache_actual_size_bytes", [], (parseSizesMB html).1.mulInt 1000000⟩ ++
  emitIf ((parseSizesMB html).1.nonneg && (parseSizesMB html).2.nonneg)
    ⟨"gwc_memcache_total_size_bytes", [], (parseSizesMB html).2.mulInt 1000000⟩

/-- The fixed default block emitted when the marker is absent
("Keep a stable metric set when memcache is disabled"). -/
def memcacheDefaults : List Metric :=
  [⟨"gwc_memcache_present", [], QV.ofInt 0⟩,
   ⟨"gwc_memcache_requests_total", [], QV.ofInt 0⟩,
   ⟨"gwc_memcache_hit_count_total", [], QV.ofInt 0⟩,
   ⟨"gwc_memcache_miss_count_total", [], QV.ofInt 0⟩,
   ⟨"gwc_memcache_hit_ratio_percent", [], QV.ofInt 0⟩,
   ⟨"gwc_memcache_miss_ratio_percent", [], QV.ofInt 0⟩,
   ⟨"gwc_memcache_evicted_tiles_total", [], QV.ofInt 0⟩,
   ⟨"gwc_memcache_occupation_percent", [], QV.ofInt 0⟩,
   ⟨"gwc_memcache_actual_size_bytes", [], QV.ofInt 0⟩,
   ⟨"gwc_memcache_total_size_bytes", [], QV.ofInt 0⟩]

/-- The in-memory-cache block of `Collect`. -/
def memcachePart (html : List Char) : List Metric :=
  if containsL mcMarker html then
    ⟨"gwc_memcache_present", [], QV.ofInt 1⟩ :: memcacheFields html
  else memcacheDefaults

/-- Everything `Collect` emits after a successful fetch of `body`:
normalization, the liveness gauge at 1, then every field extraction in
the source's order. -/
def collectBody (body : List Char) : List Metric :=
  let html := normalizeL body
  ⟨"gwc_up", [], QV.ofInt 1⟩ ::
    (versionPart html ++ startedPart html ++ uptimePart html ++
      intFieldPart "gwc_requests_total" requestsTotalRx html ++
      floatFieldPart "gwc_requests_rate_per_second" requestsRateRx html ++
      intFieldPart "gwc_untiled_wms_requests_total" untiledTotalRx html ++
      floatFieldPart "gwc_untiled_wms_requests_rate_per_second" untiledRateRx html ++
      intFieldPart "gwc_bytes_total" bytesTotalRx html ++
      floatFieldPart "gwc_bandwidth_mbps" bandwidthRx html ++
      floatFieldPart "gwc_cache_hit_ratio_percent" hitRatioRx html ++
      floatFieldPart "gwc_blank_kml_html_ratio_percent" blankRatioRx html ++
      floatFieldPart "gwc_peak_request_rate_per_second" peakRateRx html ++
      tsFieldPart "gwc_peak_request_rate_timestamp_seconds" peakRateTsRx html ++
      floatFieldPart "gwc_peak_bandwidth_mbps" peakBwRx html ++
      tsFieldPart "gwc_peak_bandwidth_timestamp_seconds" peakBwTsRx html ++
      floatFieldPart "gwc_stats_delay_seconds" statsDelayRx html ++
      intervalsPart html ++ storagePart html ++ memcachePart html)

/-- Result of reading the response body. -/
inductive BodyRead where
  | readError : BodyRead
  | ok : List Char → BodyRead

/-- Outcome of the fetch stage of one `Collect` call. -/
inductive FetchOutcome where
  | requestError : FetchOutcome
  | transportError : FetchOutcome
  | response : Nat → BodyRead → FetchOutcome

/-- The whole of `Collect`: every fetch-level failure short-circuits to
the single liveness-zero sample; a 200 response with readable body goes
through extraction. -/
def collect : FetchOutcome → List Metric
  | .requestError => [⟨"gwc_up", [], QV.ofInt 0⟩]
  | .transportError => [⟨"gwc_up", [], QV.ofInt 0⟩]
  | .response status body =>
    if status ≠ 200 then [⟨"gwc_up", [], QV.ofInt 0⟩]
    else
      match body with
      | .readError => [⟨"gwc_up", [], QV.ofInt 0⟩]
      | .ok bytes => collectBody bytes

/-! ## Claim theorems -/

/-- C3: every fetch-level failure (request construction error, transport
error/timeout, non-200 status, body-read error) makes the poll's entire
output the single liveness sample at 0 — no other field, no extraction,
no finer distinction. -/
theorem C3_liveness_short_circuit :
    collect .requestError = [⟨"gwc_up", [], QV.ofInt 0⟩] ∧
    collect .transportError = [⟨"gwc_up", [], QV.ofInt 0⟩] ∧
    (∀ (status : Nat) (b : BodyRead), status ≠ 200 →
      collect (.response status b) = [⟨"gwc_up", [], QV.ofInt 0⟩]) ∧
    collect (.response 200 .readError) = [⟨"gwc_up", [], QV.ofInt 0⟩] := by
  refine ⟨rfl, rfl, ?_, rfl⟩
  intro status b h
  simp [collect, h]

/-- Witness for C3 at a concrete failing status. -/
theorem C3_liveness_short_circuit_witness :
    collect (.response 503 (.ok "x".data)) = [⟨"gwc_up", [], QV.ofInt 0⟩] :=
  C3_liveness_short_circuit.2.2.1 503 (.ok "x".data) (by decide)

/-- C8: the extraction pipeline from body text to emitted snapshot is a
pure function — two runs on identical input produce identical output. -/
theorem C8_deterministic (b₁ b₂ : List Char) (h : b₁ = b₂) :
    collectBody b₁ = collectBody b₂ := by rw [h]

/-- Witness for C8 at a concrete input. -/
theorem C8_deterministic_witness :
    collectBody "Started: Mon (2 hours)".data = collectBody "Started: Mon (2 hours)".data :=
  C8_deterministic _ _ rfl

/-- C4, counterexample: on the claim's literal input text
"Total number of requests: 12,345" the requests-total extraction does
NOT succeed — the source pattern requires the `</th>…<td…>` table
markup — so the parse yields the absent sentinel and no field. -/
theorem C4_counterexample :
    parseFirstNumber requestsTotalRx
        (normalizeL "Total number of requests: 12,345".data) = -1 ∧
    intFieldPart "gwc_requests_total" requestsTotalRx
        (normalizeL "Total number of requests: 12,345".data) = [] := by
  constructor
  · decide
  · decide

/-- C4, amended: with the table-cell markup the pattern expects,
extraction succeeds and integer parsing strips the comma grouping
separators, yielding 12345. -/
theorem C4_amended :
    toInt "12,345".data = 12345 ∧
    parseFirstNumber requestsTotalRx
        (normalizeL "Total number of requests: </th><td> 12,345 </td>".data) = 12345 ∧
    intFieldPart "gwc_requests_total" requestsTotalRx
        (normalizeL "Total number of requests: </th><td> 12,345 </td>".data)
      = [⟨"gwc_requests_total", [], QV.ofInt 12345⟩] := by
  refine ⟨by decide, by decide, by decide⟩

/-- C5: the uptime extractor converts magnitude-plus-unit to seconds
with multipliers minute=60, hour=3600, day=86400 ("2 hours" → 7200,
"1.5 minutes" → 90, "2 days" → 172800), and an unrecognized unit word
("fortnights") yields the absent value (0, hence no emitted field),
not an error. -/
theorem C5_uptime_units :
    parseUptimeSeconds "Started: Mon (2 hours)".data = 7200 ∧
    parseUptimeSeconds "Started: Mon (1.5 minutes)".data = 90 ∧
    parseUptimeSeconds "Started: Mon (2 days)".data = 172800 ∧
    parseUptimeSeconds "Started: Mon (3 fortnights)".data = 0 ∧
    uptimePart "Started: Mon (3 fortnights)".data = [] := by
  refine ⟨by decide, by decide, by decide, by decide, by decide⟩

/-- C6: the same RFC 1123 timestamp yields the same Unix time from the
tight table-cell layout and from the loose plain-text layout, and the
tight variant is consulted first: on a text carrying an earlier loose
timestamp and a later tight one, the tight one wins (the loose parser
alone would have returned the earlier value). -/
theorem C6_started_layout_tolerance :
    parseStartedUnix "Started: </th><td> Tue, 10 Oct 2023 12:34:56 GMT".data
      = 1696941296 ∧
    parseStartedUnix "Started: Tue, 10 Oct 2023 12:34:56 GMT".data = 1696941296 ∧
    parseStartedUnix
        "Started: Thu, 01 Jan 1970 00:00:01 GMT and Started: </th><td> Tue, 10 Oct 2023 12:34:56 GMT".data
      = 1696941296 ∧
    parseStartedLoose
        "Started: Thu, 01 Jan 1970 00:00:01 GMT and Started: </th><td> Tue, 10 Oct 2023 12:34:56 GMT".data
      = 1 := by
  refine ⟨by decide, by decide, by decide, by decide⟩

/-! ## Membership helper lemmas for the conditional emissions -/

/-- Membership in a guarded singleton. -/
theorem mem_emitIf_iff {m m' : Metric} {b : Bool} :
    m ∈ emitIf b m' ↔ (b = true ∧ m = m') := by
  cases b <;> simp [emitIf]

/-- Membership in an integer field part. -/
theorem mem_intFieldPart_iff {m : Metric} {nm : String} {pat : Rx} {h : List Char} :
    m ∈ intFieldPart nm pat h ↔
      (0 ≤ parseFirstNumber pat h ∧ m = ⟨nm, [], QV.ofInt (parseFirstNumber pat h)⟩) := by
  unfold intFieldPart emitIf
  split_ifs with hc <;> simp only [decide_eq_true_eq] at hc <;> simp [hc]

/-- Membership in a float field part. -/
theorem mem_floatFieldPart_iff {m : Metric} {nm : String} {pat : Rx} {h : List Char} :
    m ∈ floatFieldPart nm pat h ↔
      ((parseFirstFloat pat h).nonneg = true ∧ m = ⟨nm, [], parseFirstFloat pat h⟩) := by
  unfold floatFieldPart emitIf
  split_ifs with hc <;> simp [hc]

/-- A window row with no regex match contributes nothing. -/
theorem intervalRow_eq_nil_of_find_none {w : String} {h : List Char}
    (hp : rxFind (intervalRowRx w) h = none) : intervalRow w h = [] := by
  unfold intervalRow
  rw [hp]

/-- Every metric of a window row carries that window's label. -/
theorem labels_of_mem_intervalRow {w : String} {h : List Char} :
    ∀ m ∈ intervalRow w h, m.labels = [w] := by
  intro m hm
  unfold intervalRow at hm
  split at hm
  · simp at hm
  · split at hm
    · simp only [List.append_assoc, List.mem_append, mem_emitIf_iff] at hm
      rcases hm with ⟨_, he⟩ | ⟨_, he⟩ | ⟨_, he⟩ | ⟨_, he⟩ <;> rw [he]
    · simp at hm

/-- C7: window extraction is per-window: each window's metrics come only
from that window's own row pattern and carry that window's label; when
the other two windows' patterns have no match, the interval section is
exactly the one matching window's contribution (and a window with no
match contributes nothing, not zeros). -/
theorem C7_window_independence (h : List Char) :
    (rxFind (intervalRowRx "15 seconds") h = none →
      rxFind (intervalRowRx "60 seconds") h = none →
      intervalsPart h = intervalRow "3 seconds" h) ∧
    (rxFind (intervalRowRx "3 seconds") h = none →
      rxFind (intervalRowRx "60 seconds") h = none →
      intervalsPart h = intervalRow "15 seconds" h) ∧
    (rxFind (intervalRowRx "3 seconds") h = none →
      rxFind (intervalRowRx "15 seconds") h = none →
      intervalsPart h = intervalRow "60 seconds" h) ∧
    (∀ w, ∀ m ∈ intervalRow w h, m.labels = [w]) := by
  refine ⟨?_, ?_, ?_, fun w => labels_of_mem_intervalRow⟩
  · intro h15 h60
    simp [intervalsPart, intervalRow_eq_nil_of_find_none h15,
      intervalRow_eq_nil_of_find_none h60]
  · intro h3 h60
    simp [intervalsPart, intervalRow_eq_nil_of_find_none h3,
      intervalRow_eq_nil_of_find_none h60]
  · intro h3 h15
    simp [intervalsPart, intervalRow_eq_nil_of_find_none h3,
      intervalRow_eq_nil_of_find_none h15]

/-- A document containing only the "3 seconds" window row. -/
def winRowDoc : List Char :=
  "<tr> <td> 3 seconds </td> <td> 10 </td> <td> 2.5 /s </td> <td> 4096 </td> <td> 1.5 mbps".data

/-- Witness for C7: on a text with only the 3-seconds row, the interval
section is that row's four labelled sub-values and nothing else. -/
theorem C7_window_independence_witness :
    intervalsPart winRowDoc = intervalRow "3 seconds" winRowDoc ∧
    intervalRow "3 seconds" winRowDoc =
      [⟨"gwc_interval_requests", ["3 seconds"], QV.ofInt 10⟩,
       ⟨"gwc_interval_rate_per_second", ["3 seconds"], ⟨5, 2⟩⟩,
       ⟨"gwc_interval_bytes", ["3 seconds"], QV.ofInt 4096⟩,
       ⟨"gwc_interval_bandwidth_mbps", ["3 seconds"], ⟨3, 2⟩⟩] :=
  ⟨(C7_window_independence winRowDoc).1 (by decide) (by decide), by decide⟩

/-- C9: zero is indistinguishable from absence for the started-at and
uptime fields (emitted only when the parse is strictly positive, and a
Unix-epoch "Started" or a "0 seconds" uptime yields no field); the
numeric extractors signal absence by the sentinel -1 under an emit guard
of `≥ 0`, and an int64-overflowing numeral parses to the sentinel. -/
theorem C9_zero_is_absent (h : List Char) :
    (startedPart h = [] ↔ parseStartedUnix h ≤ 0) ∧
    (uptimePart h = [] ↔ parseUptimeSeconds h ≤ 0) ∧
    (∀ (nm : String) (pat : Rx), intFieldPart nm pat h = [] ↔ parseFirstNumber pat h < 0) ∧
    (∀ pat : Rx, rxFind pat h = none → parseFirstNumber pat h = -1) ∧
    toInt "99999999999999999999".data = -1 ∧
    parseStartedUnix (normalizeL "Started: </th><td> Thu, 01 Jan 1970 00:00:00 GMT".data) = 0 ∧
    startedPart (normalizeL "Started: </th><td> Thu, 01 Jan 1970 00:00:00 GMT".data) = [] ∧
    parseUptimeSeconds "Started: Mon (0 seconds)".data = 0 ∧
    uptimePart "Started: Mon (0 seconds)".data = [] := by
  refine ⟨?_, ?_, ?_, ?_, by decide, by decide, by decide, by decide, by decide⟩
  · unfold startedPart emitIf
    split_ifs with hc <;> simp only [decide_eq_true_eq] at hc <;> simp <;> omega
  · unfold uptimePart emitIf
    split_ifs with hc <;> simp only [decide_eq_true_eq] at hc <;> simp <;> omega
  · intro nm pat
    unfold intFieldPart emitIf
    split_ifs with hc <;> simp only [decide_eq_true_eq] at hc <;> simp <;> omega
  · intro pat hp
    unfold parseFirstNumber
    rw [hp]

/-- Witness for C9 on the empty document: no match yields the -1 sentinel. -/
theorem C9_zero_is_absent_witness :
    parseFirstNumber requestsTotalRx [] = -1 :=
  (C9_zero_is_absent []).2.2.2.1 requestsTotalRx (by decide)

/-- C1, counterexample: on the empty input the emitted snapshot is only
the liveness field plus the cache-block defaults — catalog fields such
as requests-total and started-at are missing entirely, refuting the
"every catalog field is always present" shape. -/
theorem C1_counterexample :
    collectBody [] = ⟨"gwc_up", [], QV.ofInt 1⟩ :: memcacheDefaults ∧
    (∀ m ∈ collectBody [],
      m.name ≠ "gwc_requests_total" ∧ m.name ≠ "gwc_started_seconds") := by
  exact ⟨by decide, by decide⟩

/-- C1, amended: the snapshot always contains the liveness field and the
cache-presence flag; when the cache marker is absent it also contains
the nine cache sub-fields at their zero defaults; every other catalog
field is omitted (not defaulted) when its extraction fails. -/
theorem C1_amended (body : List Char) :
    (⟨"gwc_up", [], QV.ofInt 1⟩ : Metric) ∈ collectBody body ∧
    (containsL mcMarker (normalizeL body) = true →
      (⟨"gwc_memcache_present", [], QV.ofInt 1⟩ : Metric) ∈ collectBody body) ∧
    (containsL mcMarker (normalizeL body) = false →
      ∀ m ∈ memcacheDefaults, m ∈ collectBody body) := by
  refine ⟨?_, ?_, ?_⟩
  · unfold collectBody
    exact List.mem_cons_self _ _
  · intro hmark
    have hmem : (⟨"gwc_memcache_present", [], QV.ofInt 1⟩ : Metric) ∈
        memcachePart (normalizeL body) := by
      rw [memcachePart, if_pos hmark]
      exact List.mem_cons_self _ _
    unfold collectBody
    exact List.mem_cons_of_mem _ (List.mem_append_right _ hmem)
  · intro hmark m hm
    have hmem : m ∈ memcachePart (normalizeL body) := by
      rw [memcachePart, if_neg (by simp [hmark])]
      exact hm
    unfold collectBody
    exact List.mem_cons_of_mem _ (List.mem_append_right _ hmem)

/-- Witness for C1 on the empty document: a default cache sub-field is in
the output. -/
theorem C1_amended_witness :
    (⟨"gwc_memcache_requests_total", [], QV.ofInt 0⟩ : Metric) ∈ collectBody [] :=
  (C1_amended []).2.2 (by decide) _ (by decide)

/-- C2, counterexample: on a document consisting of just the marker, the
presence flag is emitted at 1 but the failed sub-fields are omitted
entirely rather than set to their defaults — the block IS partially
populated, refuting "each failed sub-field still yields its default". -/
theorem C2_counterexample :
    containsL mcMarker (normalizeL "In Memory Cache Statistics".data) = true ∧
    collectBody "In Memory Cache Statistics".data =
      [⟨"gwc_up", [], QV.ofInt 1⟩, ⟨"gwc_memcache_present", [], QV.ofInt 1⟩] ∧
    (∀ m ∈ collectBody "In Memory Cache Statistics".data,
      m.name ≠ "gwc_memcache_requests_total") := by
  exact ⟨by decide, by decide, by decide⟩

/-- C2, amended: if the marker is absent, the block is exactly the flag
at 0 plus the nine zero defaults; if the marker is present, the flag is
1 and each sub-field is emitted independently exactly when its own
extraction succeeds (failed sub-fields are omitted, with no fallback to
block-absent; the two size fields share one joint guard). -/
theorem C2_amended (h : List Char) :
    (containsL mcMarker h = false → memcachePart h = memcacheDefaults) ∧
    (containsL mcMarker h = true →
      (⟨"gwc_memcache_present", [], QV.ofInt 1⟩ : Metric) ∈ memcachePart h ∧
      ((∃ v, (⟨"gwc_memcache_requests_total", [], v⟩ : Metric) ∈ memcachePart h) ↔
        0 ≤ parseFirstNumber mcRequestsRx h) ∧
      ((∃ v, (⟨"gwc_memcache_hit_count_total", [], v⟩ : Metric) ∈ memcachePart h) ↔
        0 ≤ parseFirstNumber mcHitCountRx h) ∧
      ((∃ v, (⟨"gwc_memcache_miss_count_total", [], v⟩ : Metric) ∈ memcachePart h) ↔
        0 ≤ parseFirstNumber mcMissCountRx h) ∧
      ((∃ v, (⟨"gwc_memcache_hit_ratio_percent", [], v⟩ : Metric) ∈ memcachePart h) ↔
        (parseFirstFloat mcHitRatioRx h).nonneg = true) ∧
      ((∃ v, (⟨"gwc_memcache_miss_ratio_percent", [], v⟩ : Metric) ∈ memcachePart h) ↔
        (parseFirstFloat mcMissRatioRx h).nonneg = true) ∧
      ((∃ v, (⟨"gwc_memcache_evicted_tiles_total", [], v⟩ : Metric) ∈ memcachePart h) ↔
        0 ≤ parseFirstNumber mcEvictedRx h) ∧
      ((∃ v, (⟨"gwc_memcache_occupation_percent", [], v⟩ : Metric) ∈ memcachePart h) ↔
        (parseFirstFloat mcOccupationRx h).nonneg = true) ∧
      ((∃ v, (⟨"gwc_memcache_actual_size_bytes", [], v⟩ : Metric) ∈ memcachePart h) ↔
        ((parseSizesMB h).1.nonneg && (parseSizesMB h).2.nonneg) = true) ∧
      ((∃ v, (⟨"gwc_memcache_total_size_bytes", [], v⟩ : Metric) ∈ memcachePart h) ↔
        ((parseSizesMB h).1.nonneg && (parseSizesMB h).2.nonneg) = true)) := by
  constructor
  · intro hmark
    rw [memcachePart, if_neg (by simp [hmark])]
  · intro hmark
    rw [memcachePart, if_pos hmark]
    simp only [memcacheFields, List.mem_append, List.mem_cons, mem_intFieldPart_iff,
      mem_floatFieldPart_iff, mem_emitIf_iff, Metric.mk.injEq]
    refine ⟨by simp, ?_, ?_, ?_, ?_, ?_, ?_, ?_, ?_, ?_⟩
    · constructor
      · rintro ⟨v, hv⟩
        simp at hv
        tauto
      · intro hp
        exact ⟨QV.ofInt (parseFirstNumber mcRequestsRx h), by simp [hp]⟩
    · constructor
      · rintro ⟨v, hv⟩
        simp at hv
        tauto
      · intro hp
        exact ⟨QV.ofInt (parseFirstNumber mcHitCountRx h), by simp [hp]⟩
    · constructor
      · rintro ⟨v, hv⟩
        simp at hv
        tauto
      · intro hp
        exact ⟨QV.ofInt (parseFirstNumber mcMissCountRx h), by simp [hp]⟩
    · constructor
      · rintro ⟨v, hv⟩
        simp at hv
        tauto
      · intro hp
        exact ⟨parseFirstFloat mcHitRatioRx h, by simp [hp]⟩
    · constructor
      · rintro ⟨v, hv⟩
        simp at hv
        tauto
      · intro hp
        exact ⟨parseFirstFloat mcMissRatioRx h, by simp [hp]⟩
    · constructor
      · rintro ⟨v, hv⟩
        simp at hv
        tauto
      · intro hp
        exact ⟨QV.ofInt (parseFirstNumber mcEvictedRx h), by simp [hp]⟩
    · constructor
      · rintro ⟨v, hv⟩
        simp at hv
        tauto
      · intro hp
        exact ⟨parseFirstFloat mcOccupationRx h, by simp [hp]⟩
    · constructor
      · rintro ⟨v, hv⟩
        simp at hv
        simp_all
      · intro hp
        exact ⟨(parseSizesMB h).1.mulInt 1000000, by simp [hp]⟩
    · constructor
      · rintro ⟨v, hv⟩
        simp at hv
        simp_all
      · intro hp
        exact ⟨(parseSizesMB h).2.mulInt 1000000, by simp [hp]⟩

/-- Witness for C2 on the marker-only document. -/
theorem C2_amended_witness :
    (⟨"gwc_memcache_present", [], QV.ofInt 1⟩ : Metric) ∈
      memcachePart "In Memory Cache Statistics".data :=
  ((C2_amended "In Memory Cache Statistics".data).2 (by decide)).1

/-- A prefix of the replacement output that contains neither a space nor
an ampersand was already a prefix of the input. -/
theorem replKeepsTail : ∀ l t : List Char, (∀ c ∈ t, c ≠ ' ' ∧ c ≠ '&') →
    t <+: replaceAllNbsp l → t <+: l := by
  intro l
  induction l using replaceAllNbsp.induct with
  | case1 rest ih =>
    intro t hfree hp
    rw [replaceAllNbsp.eq_1] at hp
    cases t with
    | nil => exact List.nil_prefix
    | cons x t' =>
      rcases List.cons_prefix_cons.mp hp with ⟨hx, _⟩
      exact absurd hx (hfree x (by simp)).1
  | case2 c cs hne ih =>
    intro t hfree hp
    rw [replaceAllNbsp.eq_2 c cs hne] at hp
    cases t with
    | nil => exact List.nil_prefix
    | cons x t' =>
      rcases List.cons_prefix_cons.mp hp with ⟨hx, ht⟩
      subst hx
      exact List.cons_prefix_cons.mpr
        ⟨rfl, ih t' (fun d hd => hfree d (List.mem_cons_of_mem _ hd)) ht⟩
  | case3 =>
    intro t hfree hp
    rw [replaceAllNbsp.eq_3] at hp
    rw [List.prefix_nil.mp hp]

/-- The replacement output never contains the entity `&nbsp;`. -/
theorem repl_no_nbsp : ∀ l : List Char, ¬ nbspL <:+: replaceAllNbsp l := by
  intro l
  induction l using replaceAllNbsp.induct with
  | case1 rest ih =>
    rw [replaceAllNbsp.eq_1]
    intro hinf
    rcases List.infix_cons_iff.mp hinf with hp | hi
    · rcases List.cons_prefix_cons.mp hp with ⟨hc, _⟩
      exact absurd hc (by decide)
    · exact ih hi
  | case2 c cs hne ih =>
    rw [replaceAllNbsp.eq_2 c cs hne]
    intro hinf
    rcases List.infix_cons_iff.mp hinf with hp | hi
    · rcases List.cons_prefix_cons.mp hp with ⟨hc, ht⟩
      rcases replKeepsTail cs _ (by decide) ht with ⟨r, hr⟩
      exact hne r hc.symm hr.symm
    · exact ih hi
  | case3 =>
    rw [replaceAllNbsp.eq_3]
    intro hinf
    exact absurd (List.infix_nil.mp hinf) (by decide)

/-- On entity-free input the replacement is the identity. -/
theorem repl_id_of_no_nbsp : ∀ l : List Char, ¬ nbspL <:+: l → replaceAllNbsp l = l := by
  intro l
  induction l using replaceAllNbsp.induct with
  | case1 rest ih =>
    intro hno
    exact absurd (List.IsPrefix.isInfix ⟨rest, rfl⟩) hno
  | case2 c cs hne ih =>
    intro hno
    rw [replaceAllNbsp.eq_2 c cs hne,
      ih (fun hi => hno (List.infix_cons_iff.mpr (Or.inr hi)))]
  | case3 =>
    intro _
    rw [replaceAllNbsp.eq_3]

/-- Case split on a Bool, false first. -/
theorem boolCases (b : Bool) : b = false ∨ b = true := by
  cases b
  · exact Or.inl rfl
  · exact Or.inr rfl

/-- The head of output collapsed in in-whitespace state is never whitespace. -/
theorem collapse_head_nonWS : ∀ (l : List Char) (c : Char),
    (collapseGo true l).head? = some c → isWS c = false := by
  intro l
  induction l with
  | nil => intro c hc; simp [collapseGo] at hc
  | cons a as ih =>
    intro c hc
    rcases boolCases (isWS a) with hw | hw
    · rw [show collapseGo true (a :: as) = a :: collapseGo false as from by
        simp [collapseGo, hw]] at hc
      simp only [List.head?] at hc
      injection hc with h
      rw [← h]
      exact hw
    · rw [show collapseGo true (a :: as) = collapseGo true as from by
        simp [collapseGo, hw]] at hc
      exact ih c hc

/-- Collapsed output never has two adjacent whitespace characters. -/
theorem collapse_chain : ∀ (l : List Char) (b : Bool),
    List.Chain' (fun x y => ¬(isWS x = true ∧ isWS y = true)) (collapseGo b l) := by
  intro l
  induction l with
  | nil => intro b; simp [collapseGo]
  | cons a as ih =>
    intro b
    rcases boolCases (isWS a) with hw | hw
    · rw [show collapseGo b (a :: as) = a :: collapseGo false as from by
        simp [collapseGo, hw]]
      refine List.chain'_cons'.mpr ⟨?_, ih false⟩
      intro y _
      simp [hw]
    · cases b with
      | true =>
        rw [show collapseGo true (a :: as) = collapseGo true as from by
          simp [collapseGo, hw]]
        exact ih true
      | false =>
        rw [show collapseGo false (a :: as) = ' ' :: collapseGo true as from by
          simp [collapseGo, hw]]
        refine List.chain'_cons'.mpr ⟨?_, ih true⟩
        intro y hy
        have := collapse_head_nonWS as y (Option.mem_def.mp hy)
        simp [this]

/-- Every whitespace character of collapsed output is a plain space. -/
theorem collapse_ws_space : ∀ (l : List Char) (b : Bool) (c : Char),
    c ∈ collapseGo b l → isWS c = true → c = ' ' := by
  intro l
  induction l with
  | nil => intro b c hc; simp [collapseGo] at hc
  | cons a as ih =>
    intro b c hc hwc
    rcases boolCases (isWS a) with hw | hw
    · rw [show collapseGo b (a :: as) = a :: collapseGo false as from by
        simp [collapseGo, hw]] at hc
      rcases List.mem_cons.mp hc with he | hm
      · rw [he] at hwc
        rw [hwc] at hw
        cases hw
      · exact ih false c hm hwc
    · cases b with
      | true =>
        rw [show collapseGo true (a :: as) = collapseGo true as from by
          simp [collapseGo, hw]] at hc
        exact ih true c hc hwc
      | false =>
        rw [show collapseGo false (a :: as) = ' ' :: collapseGo true as from by
          simp [collapseGo, hw]] at hc
        rcases List.mem_cons.mp hc with he | hm
        · exact he
        · exact ih true c hm hwc

/-- Collapsing is the identity on already-collapsed text: no adjacent
whitespace, all whitespace plain spaces, and (in the in-whitespace
state) a non-whitespace head. -/
theorem collapse_fixed : ∀ (l : List Char) (b : Bool),
    List.Chain' (fun x y => ¬(isWS x = true ∧ isWS y = true)) l →
    (∀ c ∈ l, isWS c = true → c = ' ') →
    (b = true → ∀ c ∈ l.head?, isWS c = false) → collapseGo b l = l := by
  intro l
  induction l with
  | nil => intro b _ _ _; simp [collapseGo]
  | cons a as ih =>
    intro b hch hsp hhd
    rcases boolCases (isWS a) with hw | hw
    · rw [show collapseGo b (a :: as) = a :: collapseGo false as from by
        simp [collapseGo, hw]]
      congr 1
      refine ih false (List.chain'_cons'.mp hch).2
        (fun c hc hwc => hsp c (List.mem_cons_of_mem _ hc) hwc) ?_
      intro h
      cases h
    · cases b with
      | true =>
        have : isWS a = false := hhd rfl a (by simp)
        rw [hw] at this
        cases this
      | false =>
        have ha : a = ' ' := hsp a (by simp) hw
        rw [show collapseGo false (a :: as) = ' ' :: collapseGo true as from by
          simp [collapseGo, hw], ← ha]
        congr 1
        refine ih true (List.chain'_cons'.mp hch).2
          (fun c hc hwc => hsp c (List.mem_cons_of_mem _ hc) hwc) ?_
        intro _ c hc
        rcases boolCases (isWS c) with h | h
        · exact h
        · exact absurd ⟨hw, h⟩ ((List.chain'_cons'.mp hch).1 c hc)

/-- Collapsing twice is collapsing once. -/
theorem collapse_idem (l : List Char) :
    collapseGo false (collapseGo false l) = collapseGo false l :=
  collapse_fixed _ false (collapse_chain l false)
    (fun c hc => collapse_ws_space l false c hc)
    (by intro h; exact absurd h (by decide))

/-- A whitespace-free prefix of collapsed output was a prefix of the input. -/
theorem collapse_keeps_pref : ∀ l t : List Char, (∀ c ∈ t, isWS c = false) →
    t <+: collapseGo false l → t <+: l := by
  intro l
  induction l with
  | nil =>
    intro t _ hp
    rwa [show collapseGo false [] = [] from by simp [collapseGo]] at hp
  | cons a as ih =>
    intro t hfree hp
    rcases boolCases (isWS a) with hw | hw
    · rw [show collapseGo false (a :: as) = a :: collapseGo false as from by
        simp [collapseGo, hw]] at hp
      cases t with
      | nil => exact List.nil_prefix
      | cons x t' =>
        rcases List.cons_prefix_cons.mp hp with ⟨hx, ht⟩
        subst hx
        exact List.cons_prefix_cons.mpr
          ⟨rfl, ih t' (fun d hd => hfree d (List.mem_cons_of_mem _ hd)) ht⟩
    · rw [show collapseGo false (a :: as) = ' ' :: collapseGo true as from by
        simp [collapseGo, hw]] at hp
      cases t with
      | nil => exact List.nil_prefix
      | cons x t' =>
        rcases List.cons_prefix_cons.mp hp with ⟨hx, _⟩
        exact absurd (hx ▸ hfree x (by simp)) (by decide)

/-- A non-empty whitespace-free infix of collapsed output was an infix of
the input. -/
theorem collapse_keeps_substr : ∀ (l : List Char) (b : Bool) (t : List Char), t ≠ [] →
    (∀ c ∈ t, isWS c = false) → t <:+: collapseGo b l → t <:+: l := by
  intro l
  induction l with
  | nil =>
    intro b t hne _ hi
    rw [show collapseGo b [] = [] from by simp [collapseGo]] at hi
    exact absurd (List.infix_nil.mp hi) hne
  | cons a as ih =>
    intro b t hne hfree hi
    rcases boolCases (isWS a) with hw | hw
    · rw [show collapseGo b (a :: as) = a :: collapseGo false as from by
        simp [collapseGo, hw]] at hi
      rcases List.infix_cons_iff.mp hi with hp | hi'
      · cases t with
        | nil => exact absurd rfl hne
        | cons x t' =>
          rcases List.cons_prefix_cons.mp hp with ⟨hx, ht⟩
          subst hx
          have := collapse_keeps_pref as t'
            (fun d hd => hfree d (List.mem_cons_of_mem _ hd)) ht
          exact List.infix_cons_iff.mpr (Or.inl (List.cons_prefix_cons.mpr ⟨rfl, this⟩))
      · exact List.infix_cons_iff.mpr (Or.inr (ih false t hne hfree hi'))
    · cases b with
      | true =>
        rw [show collapseGo true (a :: as) = collapseGo true as from by
          simp [collapseGo, hw]] at hi
        exact List.infix_cons_iff.mpr (Or.inr (ih true t hne hfree hi))
      | false =>
        rw [show collapseGo false (a :: as) = ' ' :: collapseGo true as from by
          simp [collapseGo, hw]] at hi
        rcases List.infix_cons_iff.mp hi with hp | hi'
        · cases t with
          | nil => exact absurd rfl hne
          | cons x t' =>
            rcases List.cons_prefix_cons.mp hp with ⟨hx, _⟩
            exact absurd (hx ▸ hfree x (by simp)) (by decide)
        · exact List.infix_cons_iff.mpr (Or.inr (ih true t hne hfree hi'))

/-- C10: normalization is idempotent, and its output contains neither the
entity `&nbsp;` nor two adjacent whitespace characters. -/
theorem C10_normalize_idempotent (l : List Char) :
    normalizeL (normalizeL l) = normalizeL l ∧
    ¬nbspL <:+: normalizeL l ∧
    List.Chain' (fun x y => ¬(isWS x = true ∧ isWS y = true)) (normalizeL l) := by
  have hno : ¬nbspL <:+: normalizeL l := fun hi =>
    repl_no_nbsp l
      (collapse_keeps_substr (replaceAllNbsp l) false nbspL (by decide) (by decide) hi)
  refine ⟨?_, hno, collapse_chain _ false⟩
  show collapseWS (replaceAllNbsp (normalizeL l)) = normalizeL l
  rw [repl_id_of_no_nbsp _ hno]
  exact collapse_idem _
